import Mathlib

/-!
Verification development for the Mastodon-to-BlueSky mirroring scripts of this
repository (the three JavaScript sources: `src/unnamed/part_000`, the two
scripts inside `src/unnamed/part_001`, and `src/repost.js`).

The JavaScript is shallowly embedded: buffers are modelled by their byte
length together with a detected format, the sharp / ffmpeg encoders are
abstracted as arbitrary functions giving the re-encoded byte length (the code
never inspects anything else about them), and the asynchronous control flow of
the per-post loop becomes a fold over an explicit run state.  A publish call
that may throw is modelled by a `pubOk` predicate saying, per post, whether
`agent.post` succeeds; exceptions caught by a surrounding `try`/`catch` become
branches that leave the state unchanged.
-/

namespace F1Bot

/-- `BLUESKY_IMAGE_MAX_SIZE = 1024 * 1024` (1 MiB), from the source headers. -/
def BLUESKY_IMAGE_MAX_SIZE : Nat := 1024 * 1024

/-- `BLUESKY_VIDEO_MAX_SIZE = 100 * 1024 * 1024` (100 MiB). -/
def BLUESKY_VIDEO_MAX_SIZE : Nat := 100 * 1024 * 1024

/-- `BLUESKY_MAX_CHARS = 300`. -/
def BLUESKY_MAX_CHARS : Nat := 300

/-- Image formats as reported by `sharp(buffer).metadata().format`.  The code
only ever distinguishes `jpeg`, `png` and everything else. -/
inductive ImgFormat where
  | jpeg
  | png
  | other (name : String)
deriving DecidableEq

/-- An in-memory media buffer: its byte length and its detected format.  This
is all the JavaScript ever reads from a buffer. -/
structure Buf where
  len : Nat
  format : ImgFormat
deriving DecidableEq

/-- Abstraction of `sharp(buffer).jpeg({ quality }).toBuffer()` (quality
`none` models the parameterless `.jpeg()` call): the encoder `enc` gives the
resulting byte length, which the program does not control; the resulting
format is always jpeg. -/
def sharpJpeg (enc : Buf → Option Nat → Nat) (b : Buf) (quality : Option Nat) : Buf :=
  ⟨enc b (quality), ImgFormat.jpeg⟩

/-- The compression `while` loop of `processImageBuffer` / `processImage`:
`while (size > BLUESKY_IMAGE_MAX_SIZE && quality > 10) { buffer = sharp(buffer).jpeg({quality}).toBuffer(); size = buffer.length; quality -= 10; }`.
Returns the final buffer together with the final value of `quality`. -/
def compressRun (enc : Buf → Option Nat → Nat) (b : Buf) (quality : Nat) : Buf × Nat :=
  if h : BLUESKY_IMAGE_MAX_SIZE < b.len ∧ 10 < quality then
    compressRun enc (sharpJpeg enc b (some quality)) (quality - 10)
  else (b, quality)
termination_by quality
decreasing_by omega

/-- The list of quality values the compression loop actually passes to the
jpeg encoder, in order of attempt. -/
def compressTrace (enc : Buf → Option Nat → Nat) (b : Buf) (quality : Nat) : List Nat :=
  if h : BLUESKY_IMAGE_MAX_SIZE < b.len ∧ 10 < quality then
    quality :: compressTrace enc (sharpJpeg enc b (some quality)) (quality - 10)
  else []
termination_by quality
decreasing_by omega

/-- The descending quality ladder `[q, q-10, ..., 20]` (empty once the floor
is passed); the loop's attempts are always an initial segment of it. -/
def ladderFrom (quality : Nat) : List Nat :=
  if h : 10 < quality then quality :: ladderFrom (quality - 10) else []
termination_by quality
decreasing_by omega

/-- `processImageBuffer` from `src/unnamed/part_000` lines 47-77; the
file-based `processImage` of both scripts in `src/unnamed/part_001` runs the
identical logic on the file's contents (its final check re-reads the bytes it
wrote, which are the same bytes).  Convert to jpeg unless the detected format
is jpeg or png; if over 1 MiB, run the quality ladder; return `null` (here
`none`) when the result still exceeds the bound. -/
def processImageBuffer (enc : Buf → Option Nat → Nat) (buffer : Buf) : Option Buf :=
  let processedBuffer :=
    if buffer.format = ImgFormat.jpeg ∨ buffer.format = ImgFormat.png then buffer
    else sharpJpeg enc buffer none
  let final :=
    if BLUESKY_IMAGE_MAX_SIZE < processedBuffer.len then
      (compressRun enc processedBuffer 90).1
    else processedBuffer
  if BLUESKY_IMAGE_MAX_SIZE < final.len then none else some final

/-- Outcome of the ffmpeg transcode in `processVideo`: either the `error`
event fired, or the `end` event fired and the output file has the given byte
size. -/
inductive TranscodeOutcome where
  | err
  | ok (size : Nat)
deriving DecidableEq

/-- `processVideo` from `src/unnamed/part_001` (both scripts, lines 97-126 and
344-373): after transcoding, the output is dropped (`resolve(null)`, and the
file deleted) when its size exceeds `BLUESKY_VIDEO_MAX_SIZE`; an ffmpeg error
also resolves `null`.  On success the code returns the output path, modelled
here by the output's byte size. -/
def processVideo (outcome : TranscodeOutcome) : Option Nat :=
  match outcome with
  | TranscodeOutcome.err => none
  | TranscodeOutcome.ok size =>
    if BLUESKY_VIDEO_MAX_SIZE < size then none else some size

/-- `media.type` of a Mastodon media attachment, as tested by part_000. -/
inductive MediaKind where
  | image
  | video
deriving DecidableEq

/-- A media attachment as consumed by part_000's per-attachment loop: its
declared kind and the result of `downloadMediaBuffer` (`none` models the
download throwing, which the per-attachment `catch` swallows). -/
structure Attachment where
  kind : MediaKind
  fetch : Option Buf
deriving DecidableEq

/-- The three mutable locals of part_000's media loop (`src/unnamed/part_000`
lines 165-193): `imageBuffers`, `videoBuffer`, `skipDueToVideo`. -/
structure MediaState where
  imageBuffers : List Buf
  videoBuffer : Option Buf
  skipDueToVideo : Bool
deriving DecidableEq

/-- One iteration of part_000's `for (const media of post.media_attachments)`
loop: images are downloaded and normalized (dropped when `processImageBuffer`
returns `null`); a video over `BLUESKY_VIDEO_MAX_SIZE` sets `skipDueToVideo`,
otherwise the raw buffer becomes `videoBuffer`; a throw is caught and the
iteration leaves the state unchanged. -/
def mediaStep000 (enc : Buf → Option Nat → Nat) (st : MediaState)
    (media : Attachment) : MediaState :=
  match media.fetch with
  | none => st
  | some buffer =>
    match media.kind with
    | MediaKind.image =>
      match processImageBuffer enc buffer with
      | some processed => { st with imageBuffers := st.imageBuffers ++ [processed] }
      | none => st
    | MediaKind.video =>
      if BLUESKY_VIDEO_MAX_SIZE < buffer.len then { st with skipDueToVideo := true }
      else { st with videoBuffer := some buffer }

/-- part_000's media loop over all attachments of one post. -/
def collectMedia000 (enc : Buf → Option Nat → Nat) (atts : List Attachment) :
    MediaState :=
  atts.foldl (mediaStep000 enc) ⟨[], none, false⟩

/-- The mime types the scripts derive from a file name:
`file.endsWith('.mp4') ? 'video/mp4' : file.endsWith('.png') ? 'image/png' : 'image/jpeg'`. -/
inductive Mime where
  | videoMp4
  | imagePng
  | imageJpeg
deriving DecidableEq

/-- A downloaded (or processed) media file as the file-based variants see it:
the suffix its name ends with (`.mp4` for `media.type === 'video'` downloads
and for `processVideo` outputs, else `path.extname(media.url) || '.jpg'`) and
its byte size. -/
structure MediaFile where
  suffix : String
  bytes : Nat
deriving DecidableEq

/-- `file.endsWith('.mp4')` on the generated file names. -/
def MediaFile.isMp4 (f : MediaFile) : Bool := f.suffix == ".mp4"

/-- The mime chain used by `repost.js` and part_001's first script. -/
def mimeOf (f : MediaFile) : Mime :=
  if f.suffix == ".mp4" then Mime.videoMp4
  else if f.suffix == ".png" then Mime.imagePng
  else Mime.imageJpeg

/-- The mime chain of part_001's second script, applied to image files only. -/
def mimeImage (f : MediaFile) : Mime :=
  if f.suffix == ".png" then Mime.imagePng else Mime.imageJpeg

/-- One `app.bsky.embed.images#image` entry: the uploaded blob (its byte size)
and the mime it was uploaded with. -/
structure UploadedImage where
  blobBytes : Nat
  mime : Mime
deriving DecidableEq

/-- The `embed` value handed to `agent.post`: absent, an
`app.bsky.embed.images` gallery, an `app.bsky.embed.media#video`, or the
`app.bsky.embed.external` link card part_001's first script builds as a video
placeholder. -/
inductive Embed where
  | undef
  | images (items : List UploadedImage)
  | video (blobBytes : Nat)
  | linkCard (thumbBytes : Nat)
deriving DecidableEq

/-- Number of `#video` payloads in an embed. -/
def Embed.videoCount : Embed → Nat
  | Embed.video _ => 1
  | _ => 0

/-- Number of `#image` entries in an embed. -/
def Embed.imageCount : Embed → Nat
  | Embed.images items => items.length
  | _ => 0

/-- Embed construction of `postToBlueSky` in `src/unnamed/part_000` lines
102-137: a present `videoBuffer` gives a single video embed; otherwise all
`imageBuffers` are uploaded (as jpeg) into one images embed; otherwise the
embed stays `undefined`. -/
def buildEmbed000 (imageBuffers : List Buf) (videoBuffer : Option Buf) : Embed :=
  match videoBuffer with
  | some v => Embed.video v.len
  | none =>
    match imageBuffers with
    | [] => Embed.undef
    | _ :: _ =>
      Embed.images
        (imageBuffers.foldl (fun acc b => acc ++ [UploadedImage.mk b.len Mime.imageJpeg]) [])

/-- Embed construction of `postToBlueSky` in part_001's first script (lines
137-179): every file is uploaded in order; image mimes push an `#image` entry,
`video/mp4` overwrites `embed` with an `app.bsky.embed.external` card; after
the loop, a non-empty `uploaded` list overwrites `embed` with the images
gallery. -/
def buildEmbedB (mediaFiles : List MediaFile) : Embed :=
  let loopEmbed :=
    mediaFiles.foldl
      (fun e f => if mimeOf f = Mime.videoMp4 then Embed.linkCard f.bytes else e)
      Embed.undef
  let uploaded :=
    mediaFiles.foldl
      (fun acc f =>
        if mimeOf f = Mime.videoMp4 then acc
        else acc ++ [UploadedImage.mk f.bytes (mimeOf f)])
      []
  match uploaded with
  | [] => loopEmbed
  | _ :: _ => Embed.images uploaded

/-- Embed construction of `postToBlueSky` in part_001's second script (lines
397-444): files are split on `.mp4`; if any video file exists, `videoFiles[0]`
alone forms a video embed; else the image files form a gallery. -/
def buildEmbedC (mediaFiles : List MediaFile) : Embed :=
  let imageFiles := mediaFiles.filter (fun f => !(MediaFile.isMp4 f))
  let videoFiles := mediaFiles.filter (fun f => MediaFile.isMp4 f)
  match videoFiles with
  | v :: _ => Embed.video v.bytes
  | [] =>
    match imageFiles with
    | [] => Embed.undef
    | _ :: _ =>
      Embed.images
        (imageFiles.foldl
          (fun acc f => acc ++ [UploadedImage.mk f.bytes (mimeImage f)]) [])

/-- Embed construction of `postToBlueSky` in `src/repost.js` lines 72-98:
every file — videos included — is uploaded with its mime and pushed as an
`app.bsky.embed.images#image` entry of one images embed. -/
def buildEmbedRepost (mediaFiles : List MediaFile) : Embed :=
  match mediaFiles with
  | [] => Embed.undef
  | _ :: _ =>
    Embed.images
      (mediaFiles.foldl (fun acc f => acc ++ [UploadedImage.mk f.bytes (mimeOf f)]) [])

/-- A fetched Mastodon post as the RichText variants consume it: its id, the
result of `mastodonToRichText(agent, post.content || post.spoiler_text ||
post.text || '')` (`none` models the function returning `null`, `some t` a
RichText whose `.text` is `t`), and its media attachments. -/
structure Post where
  id : String
  richTextResult : Option String
  media_attachments : List Attachment
deriving DecidableEq

/-- The two text guards of the per-post loop (part_000 lines 156-163,
part_001 second script lines 463-470): skip when the RichText is `null` or
its text empty, or when the text exceeds `BLUESKY_MAX_CHARS`. -/
def textOk (post : Post) : Bool :=
  match post.richTextResult with
  | none => false
  | some t => !(t == "") && decide (t.length ≤ BLUESKY_MAX_CHARS)

/-- The run's mutable state: the `postedIds` ledger and, for specification
purposes, the ids successfully handed to `agent.post`, in publish order. -/
structure RunState where
  postedIds : List String
  published : List String
deriving DecidableEq

/-- One iteration of part_000's per-post loop (lines 152-211): text guards
skip with `continue` (no ledger write); `skipDueToVideo` appends the id to the
ledger without publishing; otherwise the post is published and then its id
appended (`pubOk post = false` models `agent.post` throwing, caught by the
per-post `catch`, leaving the state untouched). -/
def postStep000 (enc : Buf → Option Nat → Nat) (pubOk : Post → Bool)
    (st : RunState) (post : Post) : RunState :=
  if textOk post then
    if (collectMedia000 enc post.media_attachments).skipDueToVideo then
      { st with postedIds := st.postedIds ++ [post.id] }
    else if pubOk post then
      ⟨st.postedIds ++ [post.id], st.published ++ [post.id]⟩
    else st
  else st

/-- `posts.filter(post => !postedIds.includes(post.id)).reverse()` — the
candidate selection shared by all variants. -/
def candidates (postedIds : List String) (posts : List Post) : List Post :=
  (posts.filter (fun post => !(postedIds.contains post.id))).reverse

/-- One full run of part_000's main IIFE over a fetched post list, starting
from the given ledger. -/
def runOnce000 (enc : Buf → Option Nat → Nat) (pubOk : Post → Bool)
    (postedIds : List String) (posts : List Post) : RunState :=
  (candidates postedIds posts).foldl (postStep000 enc pubOk) ⟨postedIds, []⟩

/-- A post clears every guard and its publish call succeeds. -/
def willPublish (enc : Buf → Option Nat → Nat) (pubOk : Post → Bool)
    (post : Post) : Bool :=
  textOk post &&
    !(collectMedia000 enc post.media_attachments).skipDueToVideo && pubOk post

/-- A post's id gets appended to the ledger by its own iteration. -/
def willMark (enc : Buf → Option Nat → Nat) (pubOk : Post → Bool)
    (post : Post) : Bool :=
  textOk post &&
    ((collectMedia000 enc post.media_attachments).skipDueToVideo || pubOk post)

/-- A media attachment as `repost.js` (and part_001's first script) sees it:
whether `media.type === 'video'`, the `path.extname(media.url)` of its URL,
and the result of downloading it (`none` models `downloadMedia` throwing,
caught per attachment). -/
structure RepostAttachment where
  isVideo : Bool
  urlExt : String
  fetch : Option Nat
deriving DecidableEq

/-- `const ext = media.type === 'video' ? '.mp4' : path.extname(media.url) || '.jpg'`. -/
def attSuffix (a : RepostAttachment) : String :=
  if a.isVideo then ".mp4" else (if a.urlExt == "" then ".jpg" else a.urlExt)

/-- A Mastodon status as `repost.js` reads it: all the fields its line-120
fallback chain touches (each `none` when absent) plus the attachments. -/
structure RPost where
  id : String
  content : Option String
  spoiler_text : Option String
  text : Option String
  status : Option String
  summary : Option String
  caption : Option String
  plain : Option String
  body : Option String
  note : Option String
  description : Option String
  title : Option String
  display_name : Option String
  name : Option String
  username : Option String
  handle : Option String
  media_attachments : List RepostAttachment
deriving DecidableEq

/-- JavaScript `a || b` on possibly-absent strings: an absent or empty left
operand yields the right operand. -/
def jsOr (a b : Option String) : Option String :=
  match a with
  | none => b
  | some s => if s == "" then b else some s

/-- First truthy value of a JavaScript `||` chain, with `''` as the final
fallback. -/
def firstTruthy : List (Option String) → String
  | [] => ""
  | o :: rest =>
    match o with
    | none => firstTruthy rest
    | some s => if s == "" then firstTruthy rest else s

/-- The argument `repost.js` line 138 actually passes to `postToBlueSky`:
`post.content || post.spoiler_text || post.text` — note: no `|| ''`, so it is
`undefined` (here `none`) when all three are absent. -/
def fallback3 (post : RPost) : Option String :=
  jsOr (jsOr post.content post.spoiler_text) post.text

/-- The unused `text` constant computed at `repost.js` line 120: a seventeen
step fallback chain ending in `post.username || post.handle || post.id || ''`. -/
def textVarLine120 (post : RPost) : String :=
  firstTruthy
    [post.content, post.spoiler_text, post.text, post.status, post.summary,
      post.caption, post.content, post.plain, post.body, post.note,
      post.description, post.title, post.display_name, post.name,
      post.username, post.handle, some post.id]

/-- What one successful `agent.post` call in `repost.js` carried. -/
structure PublishedPost where
  pid : String
  postText : Option String
  embed : Embed
deriving DecidableEq

/-- Run state of `repost.js`: the ledger plus the published calls in order. -/
structure RepostRunState where
  postedIds : List String
  published : List PublishedPost
deriving DecidableEq

/-- The media files a post contributes in `repost.js` lines 123-135: each
attachment is downloaded (failures dropped per attachment) with no
normalization of any kind — the bytes pushed are the downloaded bytes. -/
def repostFiles (post : RPost) : List MediaFile :=
  post.media_attachments.filterMap
    (fun a => a.fetch.map (fun n => MediaFile.mk (attSuffix a) n))

/-- One iteration of `repost.js`'s per-post loop (lines 118-152): no text or
size guard of any kind — `postToBlueSky` is called for every candidate, with
`post.content || post.spoiler_text || post.text` as text and the raw
downloaded files as embed; on success the id is appended to the ledger, a
throw is caught leaving the state unchanged. -/
def repostStep (pubOk : RPost → Bool) (st : RepostRunState) (post : RPost) :
    RepostRunState :=
  if pubOk post then
    ⟨st.postedIds ++ [post.id],
      st.published ++ [⟨post.id, fallback3 post, buildEmbedRepost (repostFiles post)⟩]⟩
  else st

/-- Candidate selection of `repost.js` lines 107 and 118:
`posts.filter(post => !postedIds.includes(post.id))` then `.reverse()`. -/
def rcandidates (postedIds : List String) (posts : List RPost) : List RPost :=
  (posts.filter (fun post => !(postedIds.contains post.id))).reverse

/-- One full run of `repost.js`'s main IIFE. -/
def runRepost (pubOk : RPost → Bool) (postedIds : List String)
    (posts : List RPost) : RepostRunState :=
  (rcandidates postedIds posts).foldl (repostStep pubOk) ⟨postedIds, []⟩

lemma compressRun_fst_eq_or_jpeg (enc : Buf → Option Nat → Nat) :
    ∀ (quality : Nat) (b : Buf),
      (compressRun enc b quality).1 = b ∨
      (compressRun enc b quality).1.format = ImgFormat.jpeg := by
  intro quality
  induction quality using Nat.strong_induction_on with
  | _ quality ih =>
    intro b
    rw [compressRun]
    split
    · next h =>
      rcases ih (quality - 10) (by omega) (sharpJpeg enc b (some quality)) with h1 | h1
      · right; rw [h1]; rfl
      · right; exact h1
    · left; rfl

lemma compressRun_exit (enc : Buf → Option Nat → Nat) :
    ∀ (quality : Nat) (b : Buf),
      (compressRun enc b quality).1.len ≤ BLUESKY_IMAGE_MAX_SIZE ∨
      (compressRun enc b quality).2 ≤ 10 := by
  intro quality
  induction quality using Nat.strong_induction_on with
  | _ quality ih =>
    intro b
    rw [compressRun]
    split
    · next h => exact ih (quality - 10) (by omega) (sharpJpeg enc b (some quality))
    · next h =>
      rcases Nat.lt_or_ge BLUESKY_IMAGE_MAX_SIZE b.len with hlt | hle
      · rcases Nat.lt_or_ge 10 quality with hq | hq
        · exact absurd ⟨hlt, hq⟩ h
        · right; exact hq
      · left; exact hle

lemma compressTrace_prefix_ladder (enc : Buf → Option Nat → Nat) :
    ∀ (quality : Nat) (b : Buf),
      ∃ t, compressTrace enc b quality ++ t = ladderFrom quality := by
  intro quality
  induction quality using Nat.strong_induction_on with
  | _ quality ih =>
    intro b
    rw [compressTrace]
    split
    · next h =>
      obtain ⟨t, ht⟩ := ih (quality - 10) (by omega) (sharpJpeg enc b (some quality))
      refine ⟨t, ?_⟩
      rw [ladderFrom, dif_pos h.2]
      simpa using ht
    · exact ⟨ladderFrom quality, by simp⟩

lemma ladderFrom_90 : ladderFrom 90 = [90, 80, 70, 60, 50, 40, 30, 20] := by
  simp [ladderFrom]

/-- C1: whenever the image normalizer (`processImageBuffer` in part_000,
`processImage` in part_001) returns a buffer, that buffer's byte length is at
most `BLUESKY_IMAGE_MAX_SIZE` (1 MiB) and its format is jpeg or png; an input
for which no such buffer is produced yields `null` instead. -/
theorem image_normalizer_success_bounds (enc : Buf → Option Nat → Nat)
    (b out : Buf) (h : processImageBuffer enc b = some out) :
    out.len ≤ BLUESKY_IMAGE_MAX_SIZE ∧
      (out.format = ImgFormat.jpeg ∨ out.format = ImgFormat.png) := by
  unfold processImageBuffer at h
  set processedBuffer :=
    if b.format = ImgFormat.jpeg ∨ b.format = ImgFormat.png then b
    else sharpJpeg enc b none with hpb
  have hpbfmt : processedBuffer.format = ImgFormat.jpeg ∨
      processedBuffer.format = ImgFormat.png := by
    rw [hpb]
    split
    · next hf => exact hf
    · left; rfl
  set final :=
    if BLUESKY_IMAGE_MAX_SIZE < processedBuffer.len then
      (compressRun enc processedBuffer 90).1
    else processedBuffer with hfin
  have hfmt : final.format = ImgFormat.jpeg ∨ final.format = ImgFormat.png := by
    rw [hfin]
    split
    · rcases compressRun_fst_eq_or_jpeg enc 90 processedBuffer with h1 | h1
      · rw [h1]; exact hpbfmt
      · left; exact h1
    · exact hpbfmt
  by_cases hsz : BLUESKY_IMAGE_MAX_SIZE < final.len
  · rw [if_pos hsz] at h; exact absurd h (by simp)
  · rw [if_neg hsz] at h
    have : final = out := by injection h
    subst this
    exact ⟨Nat.le_of_not_lt hsz, hfmt⟩

/-- Witness for C1 at a concrete input: a 5-byte jpeg buffer is returned
unchanged and satisfies the bounds. -/
theorem image_normalizer_success_bounds_witness :
    processImageBuffer (fun _ _ => 0) ⟨5, ImgFormat.jpeg⟩ = some ⟨5, ImgFormat.jpeg⟩ ∧
      ((Buf.mk 5 ImgFormat.jpeg).len ≤ BLUESKY_IMAGE_MAX_SIZE ∧
        ((Buf.mk 5 ImgFormat.jpeg).format = ImgFormat.jpeg ∨
          (Buf.mk 5 ImgFormat.jpeg).format = ImgFormat.png)) :=
  ⟨by decide,
    image_normalizer_success_bounds (fun _ _ => 0) ⟨5, ImgFormat.jpeg⟩
      ⟨5, ImgFormat.jpeg⟩ (by decide)⟩

/-- C9: the image compression loop terminates on every input: the qualities it
attempts are an initial segment of the ladder `[90, 80, ..., 20]` (so at most
8 re-encodes, strictly decreasing in steps of 10, never below the floor), and
the loop exits exactly when the encoded size is within bound or the quality
counter has reached the floor of 10. -/
theorem compression_ladder_bounded (enc : Buf → Option Nat → Nat) (b : Buf) :
    (∃ t, compressTrace enc b 90 ++ t = [90, 80, 70, 60, 50, 40, 30, 20]) ∧
      (compressTrace enc b 90).length ≤ 8 ∧
      (∀ q ∈ compressTrace enc b 90, 20 ≤ q ∧ q ≤ 90) ∧
      ((compressRun enc b 90).1.len ≤ BLUESKY_IMAGE_MAX_SIZE ∨
        (compressRun enc b 90).2 ≤ 10) := by
  obtain ⟨t, ht⟩ := compressTrace_prefix_ladder enc 90 b
  rw [ladderFrom_90] at ht
  refine ⟨⟨t, ht⟩, ?_, ?_, compressRun_exit enc 90 b⟩
  · have := congrArg List.length ht
    simp [List.length_append] at this
    omega
  · intro q hq
    have hmem : q ∈ [90, 80, 70, 60, 50, 40, 30, 20] := by
      rw [← ht]
      exact List.mem_append_left t hq
    simp at hmem
    rcases hmem with h | h | h | h | h | h | h | h <;> subst h <;> omega

lemma mediaStep000_videoBuffer_cases (enc : Buf → Option Nat → Nat)
    (st : MediaState) (media : Attachment) :
    (mediaStep000 enc st media).videoBuffer = st.videoBuffer ∨
    (∃ buffer, ¬ BLUESKY_VIDEO_MAX_SIZE < buffer.len ∧
      (mediaStep000 enc st media).videoBuffer = some buffer) := by
  obtain ⟨kind, fetch⟩ := media
  rcases fetch with _ | buffer
  · left; rfl
  · rcases kind with _ | _
    · rcases hproc : processImageBuffer enc buffer with _ | processed
      · left; simp [mediaStep000, hproc]
      · left; simp [mediaStep000, hproc]
    · by_cases hsz : BLUESKY_VIDEO_MAX_SIZE < buffer.len
      · left; simp [mediaStep000, hsz]
      · right; exact ⟨buffer, hsz, by simp [mediaStep000, hsz]⟩

lemma mediaStep000_videoBuffer_bound (enc : Buf → Option Nat → Nat) :
    ∀ (atts : List Attachment) (st : MediaState),
      (∀ vb, st.videoBuffer = some vb → vb.len ≤ BLUESKY_VIDEO_MAX_SIZE) →
      ∀ vb, (atts.foldl (mediaStep000 enc) st).videoBuffer = some vb →
        vb.len ≤ BLUESKY_VIDEO_MAX_SIZE := by
  intro atts
  induction atts with
  | nil => intro st hst vb h; exact hst vb h
  | cons media rest ih =>
    intro st hst vb h
    refine ih (mediaStep000 enc st media) ?_ vb h
    intro vb' hvb'
    rcases mediaStep000_videoBuffer_cases enc st media with heq | ⟨buffer, hsz, heq⟩
    · rw [heq] at hvb'; exact hst vb' hvb'
    · rw [heq] at hvb'
      have : buffer = vb' := by injection hvb'
      subst this
      exact Nat.le_of_not_lt hsz

/-- C2: the video normalizer never hands an oversized video onward: part_001's
`processVideo` only succeeds with a size at most `BLUESKY_VIDEO_MAX_SIZE`
(100 MiB), and in part_000's inline check the `videoBuffer` that reaches the
embed step is always within the bound (an oversized download only ever sets
`skipDueToVideo`, which suppresses the post). -/
theorem video_normalizer_size_bound :
    (∀ (outcome : TranscodeOutcome) (size : Nat),
      processVideo outcome = some size → size ≤ BLUESKY_VIDEO_MAX_SIZE) ∧
    (∀ (enc : Buf → Option Nat → Nat) (atts : List Attachment) (vb : Buf),
      (collectMedia000 enc atts).videoBuffer = some vb →
        vb.len ≤ BLUESKY_VIDEO_MAX_SIZE) := by
  constructor
  · intro outcome size h
    rcases outcome with _ | sz
    · exact absurd h (by simp [processVideo])
    · simp only [processVideo] at h
      by_cases hsz : BLUESKY_VIDEO_MAX_SIZE < sz
      · rw [if_pos hsz] at h; exact absurd h (by simp)
      · rw [if_neg hsz] at h
        have : sz = size := by injection h
        subst this
        exact Nat.le_of_not_lt hsz
  · intro enc atts vb h
    exact mediaStep000_videoBuffer_bound enc atts ⟨[], none, false⟩ (by simp) vb h

/-- Witness for C2 at concrete inputs: a 7-byte transcode succeeds within
bound, and a downloaded 9-byte video becomes the `videoBuffer` and is within
bound. -/
theorem video_normalizer_size_bound_witness :
    (processVideo (TranscodeOutcome.ok 7) = some 7 ∧ 7 ≤ BLUESKY_VIDEO_MAX_SIZE) ∧
    ((collectMedia000 (fun _ _ => 0)
        [⟨MediaKind.video, some ⟨9, ImgFormat.other "mp4"⟩⟩]).videoBuffer
          = some ⟨9, ImgFormat.other "mp4"⟩ ∧
      (Buf.mk 9 (ImgFormat.other "mp4")).len ≤ BLUESKY_VIDEO_MAX_SIZE) :=
  ⟨⟨by decide, video_normalizer_size_bound.1 (TranscodeOutcome.ok 7) 7 (by decide)⟩,
    ⟨by decide,
      video_normalizer_size_bound.2 (fun _ _ => 0)
        [⟨MediaKind.video, some ⟨9, ImgFormat.other "mp4"⟩⟩]
        ⟨9, ImgFormat.other "mp4"⟩ (by decide)⟩⟩

lemma foldl_push_eq_map {α β : Type} (g : α → β) :
    ∀ (l : List α) (acc : List β),
      l.foldl (fun a x => a ++ [g x]) acc = acc ++ l.map g := by
  intro l
  induction l with
  | nil => intro acc; simp
  | cons x xs ih => intro acc; simp [ih]

/-- Counterexample to C4 as stated: in part_001's first script, a post whose
media are one jpeg image and one mp4 video yields an images embed (the video's
placeholder is overwritten), i.e. zero videos and one image — not one video
and zero images. -/
theorem embed_exclusivity_counterexample :
    ¬ ((buildEmbedB [⟨".jpg", 100⟩, ⟨".mp4", 200⟩]).videoCount = 1 ∧
        (buildEmbedB [⟨".jpg", 100⟩, ⟨".mp4", 200⟩]).imageCount = 0) := by
  decide

/-- C4 (amended): in part_000's `postToBlueSky` and part_001's second script,
a post whose media set contains a video yields an embed with exactly one video
and zero images; part_001's first script instead keeps the images and drops
the video whenever any image is present, and `repost.js` embeds every file
(videos included) as images. -/
theorem embed_exclusivity_amended :
    (∀ (imageBuffers : List Buf) (v : Buf),
      (buildEmbed000 imageBuffers (some v)).videoCount = 1 ∧
        (buildEmbed000 imageBuffers (some v)).imageCount = 0) ∧
    (∀ mediaFiles : List MediaFile, (∃ f ∈ mediaFiles, MediaFile.isMp4 f) →
      (buildEmbedC mediaFiles).videoCount = 1 ∧
        (buildEmbedC mediaFiles).imageCount = 0) := by
  constructor
  · intro imageBuffers v
    exact ⟨rfl, rfl⟩
  · intro mediaFiles hvid
    have hne : mediaFiles.filter (fun f => MediaFile.isMp4 f) ≠ [] := by
      obtain ⟨f, hf, hmp4⟩ := hvid
      intro hnil
      have : f ∈ mediaFiles.filter (fun f => MediaFile.isMp4 f) :=
        List.mem_filter.mpr ⟨hf, hmp4⟩
      rw [hnil] at this
      exact absurd this (List.not_mem_nil f)
    rcases hflt : mediaFiles.filter (fun f => MediaFile.isMp4 f) with _ | ⟨v, rest⟩
    · exact absurd hflt hne
    · constructor <;> simp [buildEmbedC, hflt, Embed.videoCount, Embed.imageCount]

/-- Witness for C4 (amended) at a concrete input: one image file plus one
video file, through part_001's second script. -/
theorem embed_exclusivity_amended_witness :
    (∃ f ∈ [MediaFile.mk ".jpg" 100, MediaFile.mk ".mp4" 200], MediaFile.isMp4 f) ∧
      ((buildEmbedC [MediaFile.mk ".jpg" 100, MediaFile.mk ".mp4" 200]).videoCount = 1 ∧
        (buildEmbedC [MediaFile.mk ".jpg" 100, MediaFile.mk ".mp4" 200]).imageCount = 0) :=
  ⟨⟨⟨".mp4", 200⟩, by decide⟩,
    embed_exclusivity_amended.2 [⟨".jpg", 100⟩, ⟨".mp4", 200⟩]
      ⟨⟨".mp4", 200⟩, by decide⟩⟩

/-- Counterexample to C5 as stated: six valid images through part_000's
`postToBlueSky` produce an embed with six `#image` entries — there is no cap
at 4. -/
theorem gallery_cap_counterexample :
    ¬ ((buildEmbed000
        [⟨10, ImgFormat.jpeg⟩, ⟨11, ImgFormat.jpeg⟩, ⟨12, ImgFormat.jpeg⟩,
          ⟨13, ImgFormat.jpeg⟩, ⟨14, ImgFormat.jpeg⟩, ⟨15, ImgFormat.jpeg⟩]
        none).imageCount ≤ 4) := by
  decide

/-- C5 (amended): no gallery cap is applied anywhere: for image-only media the
embed contains an entry for every valid image, in attachment arrival order
(six valid images yield all six, not the first four). -/
theorem gallery_no_cap_amended :
    (∀ imageBuffers : List Buf, imageBuffers ≠ [] →
      buildEmbed000 imageBuffers none =
        Embed.images (imageBuffers.map (fun b => UploadedImage.mk b.len Mime.imageJpeg))) ∧
    (∀ mediaFiles : List MediaFile, (∀ f ∈ mediaFiles, MediaFile.isMp4 f = false) →
      mediaFiles ≠ [] →
      buildEmbedC mediaFiles =
        Embed.images (mediaFiles.map (fun f => UploadedImage.mk f.bytes (mimeImage f)))) := by
  constructor
  · intro imageBuffers hne
    rcases imageBuffers with _ | ⟨b, rest⟩
    · exact absurd rfl hne
    · simp [buildEmbed000, foldl_push_eq_map]
  · intro mediaFiles hall hne
    have himg : mediaFiles.filter (fun f => !(MediaFile.isMp4 f)) = mediaFiles := by
      rw [List.filter_eq_self]
      intro f hf
      simp [hall f hf]
    have hvid : mediaFiles.filter (fun f => MediaFile.isMp4 f) = [] := by
      rw [List.filter_eq_nil_iff]
      intro f hf
      simp [hall f hf]
    rcases hm : mediaFiles with _ | ⟨f, rest⟩
    · exact absurd hm hne
    · rw [← hm]
      unfold buildEmbedC
      rw [hvid, himg, hm]
      simp [foldl_push_eq_map]

/-- Witness for C5 (amended) at a concrete input: six jpeg buffers through
part_000's builder come back as six gallery entries in order. -/
theorem gallery_no_cap_amended_witness :
    ([⟨10, ImgFormat.jpeg⟩, ⟨11, ImgFormat.jpeg⟩, ⟨12, ImgFormat.jpeg⟩,
        ⟨13, ImgFormat.jpeg⟩, ⟨14, ImgFormat.jpeg⟩, ⟨15, ImgFormat.jpeg⟩] : List Buf) ≠ [] ∧
      buildEmbed000
        [⟨10, ImgFormat.jpeg⟩, ⟨11, ImgFormat.jpeg⟩, ⟨12, ImgFormat.jpeg⟩,
          ⟨13, ImgFormat.jpeg⟩, ⟨14, ImgFormat.jpeg⟩, ⟨15, ImgFormat.jpeg⟩] none =
        Embed.images
          (([⟨10, ImgFormat.jpeg⟩, ⟨11, ImgFormat.jpeg⟩, ⟨12, ImgFormat.jpeg⟩,
            ⟨13, ImgFormat.jpeg⟩, ⟨14, ImgFormat.jpeg⟩,
            ⟨15, ImgFormat.jpeg⟩] : List Buf).map
              (fun b => UploadedImage.mk b.len Mime.imageJpeg)) :=
  ⟨by decide,
    gallery_no_cap_amended.1
      [⟨10, ImgFormat.jpeg⟩, ⟨11, ImgFormat.jpeg⟩, ⟨12, ImgFormat.jpeg⟩,
        ⟨13, ImgFormat.jpeg⟩, ⟨14, ImgFormat.jpeg⟩, ⟨15, ImgFormat.jpeg⟩]
      (by decide)⟩

lemma foldl_postStep000_published (enc : Buf → Option Nat → Nat)
    (pubOk : Post → Bool) :
    ∀ (l : List Post) (st : RunState),
      (l.foldl (postStep000 enc pubOk) st).published =
        st.published ++ (l.filter (willPublish enc pubOk)).map Post.id := by
  intro l
  induction l with
  | nil => intro st; simp
  | cons p t ih =>
    intro st
    rw [List.foldl_cons, ih, List.filter_cons]
    by_cases h1 : textOk p
    · by_cases h2 : (collectMedia000 enc p.media_attachments).skipDueToVideo
      · simp [postStep000, willPublish, h1, h2]
      · by_cases h3 : pubOk p
        · simp [postStep000, willPublish, h1, h2, h3]
        · simp [postStep000, willPublish, h1, h2, h3]
    · simp [postStep000, willPublish, h1]

lemma postStep000_postedIds_mem (enc : Buf → Option Nat → Nat)
    (pubOk : Post → Bool) (st : RunState) (post : Post) (x : String)
    (hx : x ∈ st.postedIds) : x ∈ (postStep000 enc pubOk st post).postedIds := by
  unfold postStep000
  split
  · split
    · exact List.mem_append_left _ hx
    · split
      · exact List.mem_append_left _ hx
      · exact hx
  · exact hx

lemma foldl_postStep000_postedIds_mono (enc : Buf → Option Nat → Nat)
    (pubOk : Post → Bool) :
    ∀ (l : List Post) (st : RunState) (x : String), x ∈ st.postedIds →
      x ∈ (l.foldl (postStep000 enc pubOk) st).postedIds := by
  intro l
  induction l with
  | nil => intro st x hx; exact hx
  | cons p t ih =>
    intro st x hx
    exact ih (postStep000 enc pubOk st p) x
      (postStep000_postedIds_mem enc pubOk st p x hx)

lemma foldl_postStep000_marks (enc : Buf → Option Nat → Nat)
    (pubOk : Post → Bool) :
    ∀ (l : List Post) (st : RunState) (post : Post), post ∈ l →
      willMark enc pubOk post = true →
      post.id ∈ (l.foldl (postStep000 enc pubOk) st).postedIds := by
  intro l
  induction l with
  | nil => intro st post h; exact absurd h (List.not_mem_nil post)
  | cons p t ih =>
    intro st post hmem hmark
    rcases List.mem_cons.mp hmem with heq | htail
    · subst heq
      rw [List.foldl_cons]
      refine foldl_postStep000_postedIds_mono enc pubOk t _ post.id ?_
      unfold willMark at hmark
      simp only [Bool.and_eq_true, Bool.or_eq_true] at hmark
      obtain ⟨h1, h2⟩ := hmark
      unfold postStep000
      rw [if_pos h1]
      rcases h2 with h2 | h2
      · rw [if_pos h2]; exact List.mem_append_right _ (List.mem_singleton.mpr rfl)
      · by_cases hskip : (collectMedia000 enc post.media_attachments).skipDueToVideo
        · rw [if_pos hskip]
          exact List.mem_append_right _ (List.mem_singleton.mpr rfl)
        · rw [if_neg hskip, if_pos h2]
          exact List.mem_append_right _ (List.mem_singleton.mpr rfl)
    · exact ih (postStep000 enc pubOk st p) post htail hmark

lemma foldl_repostStep_published (pubOk : RPost → Bool) :
    ∀ (l : List RPost) (st : RepostRunState),
      (l.foldl (repostStep pubOk) st).published =
        st.published ++
          (l.filter pubOk).map
            (fun post =>
              PublishedPost.mk post.id (fallback3 post)
                (buildEmbedRepost (repostFiles post))) := by
  intro l
  induction l with
  | nil => intro st; simp
  | cons p t ih =>
    intro st
    rw [List.foldl_cons, ih, List.filter_cons]
    by_cases h1 : pubOk p
    · simp [repostStep, h1]
    · simp [repostStep, h1]

lemma foldl_repostStep_postedIds_mono (pubOk : RPost → Bool) :
    ∀ (l : List RPost) (st : RepostRunState) (x : String), x ∈ st.postedIds →
      x ∈ (l.foldl (repostStep pubOk) st).postedIds := by
  intro l
  induction l with
  | nil => intro st x hx; exact hx
  | cons p t ih =>
    intro st x hx
    refine ih (repostStep pubOk st p) x ?_
    unfold repostStep
    split
    · exact List.mem_append_left _ hx
    · exact hx

lemma foldl_repostStep_marks (pubOk : RPost → Bool) :
    ∀ (l : List RPost) (st : RepostRunState) (post : RPost), post ∈ l →
      pubOk post = true →
      post.id ∈ (l.foldl (repostStep pubOk) st).postedIds := by
  intro l
  induction l with
  | nil => intro st post h; exact absurd h (List.not_mem_nil post)
  | cons p t ih =>
    intro st post hmem hpub
    rcases List.mem_cons.mp hmem with heq | htail
    · subst heq
      rw [List.foldl_cons]
      refine foldl_repostStep_postedIds_mono pubOk t _ post.id ?_
      unfold repostStep
      rw [if_pos hpub]
      exact List.mem_append_right _ (List.mem_singleton.mpr rfl)
    · exact ih (repostStep pubOk st p) post htail hpub

lemma willPublish_willMark (enc : Buf → Option Nat → Nat) (pubOk : Post → Bool)
    (post : Post) (h : willPublish enc pubOk post = true) :
    willMark enc pubOk post = true := by
  unfold willPublish at h
  unfold willMark
  simp only [Bool.and_eq_true, Bool.or_eq_true] at h ⊢
  exact ⟨h.1.1, Or.inr h.2⟩

lemma candidates_append (postedIds : List String) (l1 l2 : List Post) :
    candidates postedIds (l1 ++ l2) =
      candidates postedIds l2 ++ candidates postedIds l1 := by
  unfold candidates
  rw [List.filter_append, List.reverse_append]

lemma rcandidates_append (postedIds : List String) (l1 l2 : List RPost) :
    rcandidates postedIds (l1 ++ l2) =
      rcandidates postedIds l2 ++ rcandidates postedIds l1 := by
  unfold rcandidates
  rw [List.filter_append, List.reverse_append]

lemma runOnce000_erase_middle (enc : Buf → Option Nat → Nat)
    (pubOk : Post → Bool) (postedIds : List String) (pre suf : List Post)
    (p : Post) (hid : ∀ st, postStep000 enc pubOk st p = st) :
    runOnce000 enc pubOk postedIds (pre ++ [p] ++ suf) =
      runOnce000 enc pubOk postedIds (pre ++ suf) := by
  unfold runOnce000
  rw [List.append_assoc, candidates_append postedIds pre ([p] ++ suf),
    candidates_append postedIds [p] suf,
    candidates_append postedIds pre suf]
  have hcand : candidates postedIds [p] = [] ∨ candidates postedIds [p] = [p] := by
    unfold candidates
    by_cases hc : postedIds.contains p.id
    · left
      have hmem : p.id ∈ postedIds := by simpa [List.contains] using hc
      simp [hmem]
    · right
      have hmem : p.id ∉ postedIds := by simpa [List.contains] using hc
      simp [hmem]
  rcases hcand with h | h
  · rw [h]; simp
  · rw [h]
    simp [List.foldl_append, hid]

lemma runRepost_erase_middle (pubOk : RPost → Bool) (postedIds : List String)
    (pre suf : List RPost) (p : RPost)
    (hid : ∀ st, repostStep pubOk st p = st) :
    runRepost pubOk postedIds (pre ++ [p] ++ suf) =
      runRepost pubOk postedIds (pre ++ suf) := by
  unfold runRepost
  rw [List.append_assoc, rcandidates_append postedIds pre ([p] ++ suf),
    rcandidates_append postedIds [p] suf,
    rcandidates_append postedIds pre suf]
  have hcand : rcandidates postedIds [p] = [] ∨ rcandidates postedIds [p] = [p] := by
    unfold rcandidates
    by_cases hc : postedIds.contains p.id
    · left
      have hmem : p.id ∈ postedIds := by simpa [List.contains] using hc
      simp [hmem]
    · right
      have hmem : p.id ∉ postedIds := by simpa [List.contains] using hc
      simp [hmem]
  rcases hcand with h | h
  · rw [h]; simp
  · rw [h]
    simp [List.foldl_append, hid]

/-- Counterexample to C3 as stated: after a completed first run over one post
whose transformed text is empty, that post is NOT filtered out by ledger
membership on the second run (the text-skip `continue` never wrote the
ledger) — the second-run candidate list still contains it; the second run
publishes nothing only because the same skip is taken again. -/
theorem second_run_not_all_ledger_filtered_counterexample :
    candidates
        ((runOnce000 (fun _ _ => 0) (fun _ => true) []
          [Post.mk "p0" (some "") []]).postedIds)
        [Post.mk "p0" (some "") []] = [Post.mk "p0" (some "") []] ∧
      (runOnce000 (fun _ _ => 0) (fun _ => true)
        ((runOnce000 (fun _ _ => 0) (fun _ => true) []
          [Post.mk "p0" (some "") []]).postedIds)
        [Post.mk "p0" (some "") []]).published = [] := by
  decide

lemma runOnce000_published (enc : Buf → Option Nat → Nat) (pubOk : Post → Bool)
    (postedIds : List String) (posts : List Post) :
    (runOnce000 enc pubOk postedIds posts).published =
      ((candidates postedIds posts).filter (willPublish enc pubOk)).map Post.id := by
  unfold runOnce000
  rw [foldl_postStep000_published]
  simp

lemma runOnce000_postedIds_mono (enc : Buf → Option Nat → Nat)
    (pubOk : Post → Bool) (postedIds : List String) (posts : List Post)
    (x : String) (hx : x ∈ postedIds) :
    x ∈ (runOnce000 enc pubOk postedIds posts).postedIds := by
  unfold runOnce000
  exact foldl_postStep000_postedIds_mono enc pubOk _ ⟨postedIds, []⟩ x hx

lemma runOnce000_marks (enc : Buf → Option Nat → Nat) (pubOk : Post → Bool)
    (postedIds : List String) (posts : List Post) (p : Post)
    (hp : p ∈ candidates postedIds posts) (hm : willMark enc pubOk p = true) :
    p.id ∈ (runOnce000 enc pubOk postedIds posts).postedIds := by
  unfold runOnce000
  exact foldl_postStep000_marks enc pubOk _ ⟨postedIds, []⟩ p hp hm

lemma mem_candidates (postedIds : List String) (posts : List Post) (p : Post) :
    p ∈ candidates postedIds posts ↔ p ∈ posts ∧ p.id ∉ postedIds := by
  unfold candidates
  rw [List.mem_reverse, List.mem_filter]
  simp [List.contains]

lemma runRepost_published (pubOk : RPost → Bool) (postedIds : List String)
    (posts : List RPost) :
    (runRepost pubOk postedIds posts).published =
      ((rcandidates postedIds posts).filter pubOk).map
        (fun post =>
          PublishedPost.mk post.id (fallback3 post)
            (buildEmbedRepost (repostFiles post))) := by
  unfold runRepost
  rw [foldl_repostStep_published]
  simp

lemma runRepost_postedIds_mono (pubOk : RPost → Bool) (postedIds : List String)
    (posts : List RPost) (x : String) (hx : x ∈ postedIds) :
    x ∈ (runRepost pubOk postedIds posts).postedIds := by
  unfold runRepost
  exact foldl_repostStep_postedIds_mono pubOk _ ⟨postedIds, []⟩ x hx

lemma runRepost_marks (pubOk : RPost → Bool) (postedIds : List String)
    (posts : List RPost) (p : RPost) (hp : p ∈ rcandidates postedIds posts)
    (hm : pubOk p = true) :
    p.id ∈ (runRepost pubOk postedIds posts).postedIds := by
  unfold runRepost
  exact foldl_repostStep_marks pubOk _ ⟨postedIds, []⟩ p hp hm

lemma mem_rcandidates (postedIds : List String) (posts : List RPost)
    (p : RPost) :
    p ∈ rcandidates postedIds posts ↔ p ∈ posts ∧ p.id ∉ postedIds := by
  unfold rcandidates
  rw [List.mem_reverse, List.mem_filter]
  simp [List.contains]

/-- C3 (amended): a second run over the same fetched posts with the ledger the
first run left behind publishes zero new posts — each second-run candidate is
either filtered out by ledger membership or deterministically re-skipped or
re-failed, exactly as in the first run.  Holds for part_000's loop and for
`repost.js`'s. -/
theorem second_run_publishes_nothing_amended :
    (∀ (enc : Buf → Option Nat → Nat) (pubOk : Post → Bool)
        (postedIds : List String) (posts : List Post),
      (runOnce000 enc pubOk
        (runOnce000 enc pubOk postedIds posts).postedIds posts).published = []) ∧
    (∀ (pubOk : RPost → Bool) (postedIds : List String) (posts : List RPost),
      (runRepost pubOk
        (runRepost pubOk postedIds posts).postedIds posts).published = []) := by
  constructor
  · intro enc pubOk postedIds posts
    rw [runOnce000_published, List.map_eq_nil_iff, List.filter_eq_nil_iff]
    intro p hp hwp
    rw [mem_candidates] at hp
    obtain ⟨hpost, hnotin⟩ := hp
    have hids : p.id ∉ postedIds := fun hmem =>
      hnotin (runOnce000_postedIds_mono enc pubOk postedIds posts p.id hmem)
    have hcand1 : p ∈ candidates postedIds posts :=
      (mem_candidates postedIds posts p).mpr ⟨hpost, hids⟩
    exact hnotin
      (runOnce000_marks enc pubOk postedIds posts p hcand1
        (willPublish_willMark enc pubOk p hwp))
  · intro pubOk postedIds posts
    rw [runRepost_published, List.map_eq_nil_iff, List.filter_eq_nil_iff]
    intro p hp hwp
    rw [mem_rcandidates] at hp
    obtain ⟨hpost, hnotin⟩ := hp
    have hids : p.id ∉ postedIds := fun hmem =>
      hnotin (runRepost_postedIds_mono pubOk postedIds posts p.id hmem)
    have hcand1 : p ∈ rcandidates postedIds posts :=
      (mem_rcandidates postedIds posts p).mpr ⟨hpost, hids⟩
    exact hnotin (runRepost_marks pubOk postedIds posts p hcand1 hwp)

/-- Counterexample to C6 as stated: a candidate post whose transformed text is
empty is skipped by a bare `continue` — its identifier is NOT marked processed
in the ledger (and it is not published either). -/
theorem text_skip_marks_ledger_counterexample :
    (runOnce000 (fun _ _ => 0) (fun _ => true) []
        [Post.mk "p0" (some "") []]).postedIds = [] ∧
      (runOnce000 (fun _ _ => 0) (fun _ => true) []
        [Post.mk "p0" (some "") []]).published = [] := by
  decide

/-- C6 (amended): a candidate post whose transformed text is empty or over the
300-character ceiling is not published and leaves the run state exactly as if
the post were absent: nothing is appended to the ledger (the post will be
reconsidered on every later run) and the loop continues with the next
candidate. -/
theorem text_skip_unrecorded_amended (enc : Buf → Option Nat → Nat)
    (pubOk : Post → Bool) (postedIds : List String) (pre suf : List Post)
    (p : Post) (h : textOk p = false) :
    runOnce000 enc pubOk postedIds (pre ++ [p] ++ suf) =
      runOnce000 enc pubOk postedIds (pre ++ suf) := by
  refine runOnce000_erase_middle enc pubOk postedIds pre suf p ?_
  intro st
  simp [postStep000, h]

/-- Witness for C6 (amended) at a concrete input: an empty-text post between
two others changes nothing. -/
theorem text_skip_unrecorded_amended_witness :
    textOk (Post.mk "p0" (some "") []) = false ∧
      runOnce000 (fun _ _ => 0) (fun _ => true) []
          ([Post.mk "a" (some "ta") []] ++ [Post.mk "p0" (some "") []] ++
            [Post.mk "b" (some "tb") []]) =
        runOnce000 (fun _ _ => 0) (fun _ => true) []
          ([Post.mk "a" (some "ta") []] ++ [Post.mk "b" (some "tb") []]) :=
  ⟨by decide,
    text_skip_unrecorded_amended (fun _ _ => 0) (fun _ => true) []
      [Post.mk "a" (some "ta") []] [Post.mk "b" (some "tb") []]
      (Post.mk "p0" (some "") []) (by decide)⟩

/-- C7: a publish failure is caught at the per-post boundary: the run over a
list containing the failing post equals the run over the list without it — the
ledger gains no entry for that post (so it is retried next run), every other
candidate is processed identically, and the run is not aborted.  Holds for
part_000's loop (a post that passes the text guards, has no video-size skip,
and whose `agent.post` throws) and for `repost.js`'s loop. -/
theorem publish_failure_isolated :
    (∀ (enc : Buf → Option Nat → Nat) (pubOk : Post → Bool)
        (postedIds : List String) (pre suf : List Post) (p : Post),
      textOk p = true →
      (collectMedia000 enc p.media_attachments).skipDueToVideo = false →
      pubOk p = false →
      runOnce000 enc pubOk postedIds (pre ++ [p] ++ suf) =
        runOnce000 enc pubOk postedIds (pre ++ suf)) ∧
    (∀ (pubOk : RPost → Bool) (postedIds : List String)
        (pre suf : List RPost) (p : RPost),
      pubOk p = false →
      runRepost pubOk postedIds (pre ++ [p] ++ suf) =
        runRepost pubOk postedIds (pre ++ suf)) := by
  constructor
  · intro enc pubOk postedIds pre suf p h1 h2 h3
    refine runOnce000_erase_middle enc pubOk postedIds pre suf p ?_
    intro st
    simp [postStep000, h1, h2, h3]
  · intro pubOk postedIds pre suf p h
    refine runRepost_erase_middle pubOk postedIds pre suf p ?_
    intro st
    simp [repostStep, h]

/-- Witness for C7 at concrete inputs: a failing publish in each variant
leaves the run equal to the run without that post. -/
theorem publish_failure_isolated_witness :
    (textOk (Post.mk "x" (some "hi") []) = true ∧
      (collectMedia000 (fun _ _ => 0)
        (Post.mk "x" (some "hi") []).media_attachments).skipDueToVideo = false ∧
      (fun _ : Post => false) (Post.mk "x" (some "hi") []) = false ∧
      runOnce000 (fun _ _ => 0) (fun _ => false) []
          ([Post.mk "a" (some "ta") []] ++ [Post.mk "x" (some "hi") []] ++
            [Post.mk "b" (some "tb") []]) =
        runOnce000 (fun _ _ => 0) (fun _ => false) []
          ([Post.mk "a" (some "ta") []] ++ [Post.mk "b" (some "tb") []])) ∧
    ((fun _ : RPost => false)
        (RPost.mk "r1" none none none none none none none none none none none
          none none none none []) = false ∧
      runRepost (fun _ => false) []
          ([] ++
            [RPost.mk "r1" none none none none none none none none none none
              none none none none none []] ++ []) =
        runRepost (fun _ => false) [] ([] ++ [])) :=
  ⟨⟨by decide, by decide, rfl,
      publish_failure_isolated.1 (fun _ _ => 0) (fun _ => false) []
        [Post.mk "a" (some "ta") []] [Post.mk "b" (some "tb") []]
        (Post.mk "x" (some "hi") []) (by decide) (by decide) rfl⟩,
    ⟨rfl,
      publish_failure_isolated.2 (fun _ => false) [] [] []
        (RPost.mk "r1" none none none none none none none none none none none
          none none none none []) rfl⟩⟩

/-- C8: candidates are processed in the exact reverse of the fetched order:
the published ids are the ledger-surviving candidates (`filter` then
`reverse`) that clear all guards, in that order; in particular, when every
fetched post is unseen and publishable, the published sequence is exactly the
reverse of the fetched (most-recent-first) sequence, i.e. oldest first. -/
theorem publish_order_oldest_first :
    (∀ (enc : Buf → Option Nat → Nat) (pubOk : Post → Bool)
        (postedIds : List String) (posts : List Post),
      (runOnce000 enc pubOk postedIds posts).published =
        ((candidates postedIds posts).filter (willPublish enc pubOk)).map Post.id) ∧
    (∀ (enc : Buf → Option Nat → Nat) (pubOk : Post → Bool)
        (postedIds : List String) (posts : List Post),
      (∀ p ∈ posts, p.id ∉ postedIds) →
      (∀ p ∈ posts, willPublish enc pubOk p = true) →
      (runOnce000 enc pubOk postedIds posts).published =
        (posts.map Post.id).reverse) := by
  constructor
  · intro enc pubOk postedIds posts
    exact runOnce000_published enc pubOk postedIds posts
  · intro enc pubOk postedIds posts hunseen hpub
    rw [runOnce000_published]
    have hcand : candidates postedIds posts = posts.reverse := by
      unfold candidates
      congr 1
      rw [List.filter_eq_self]
      intro p hp
      simp [List.contains, hunseen p hp]
    rw [hcand]
    have hfil : posts.reverse.filter (willPublish enc pubOk) = posts.reverse := by
      rw [List.filter_eq_self]
      intro p hp
      exact hpub p (List.mem_reverse.mp hp)
    rw [hfil, List.map_reverse]

/-- Witness for C8 at a concrete input: three unseen publishable posts fetched
most-recent-first `["3", "2", "1"]` are published `["1", "2", "3"]`. -/
theorem publish_order_oldest_first_witness :
    (∀ p ∈ [Post.mk "3" (some "t3") [], Post.mk "2" (some "t2") [],
        Post.mk "1" (some "t1") []], p.id ∉ ([] : List String)) ∧
      (∀ p ∈ [Post.mk "3" (some "t3") [], Post.mk "2" (some "t2") [],
          Post.mk "1" (some "t1") []],
        willPublish (fun _ _ => 0) (fun _ => true) p = true) ∧
      (runOnce000 (fun _ _ => 0) (fun _ => true) []
          [Post.mk "3" (some "t3") [], Post.mk "2" (some "t2") [],
            Post.mk "1" (some "t1") []]).published =
        (([Post.mk "3" (some "t3") [], Post.mk "2" (some "t2") [],
          Post.mk "1" (some "t1") []].map Post.id)).reverse :=
  ⟨by decide, by decide,
    publish_order_oldest_first.2 (fun _ _ => 0) (fun _ => true) []
      [Post.mk "3" (some "t3") [], Post.mk "2" (some "t2") [],
        Post.mk "1" (some "t1") []] (by decide) (by decide)⟩

/-- C10: `repost.js` publishes every candidate unconditionally: the published
calls are exactly the ledger-surviving candidates whose publish succeeded —
no empty-text, character-length, or media-size guard intervenes — each carrying
`post.content || post.spoiler_text || post.text` as text (possibly `undefined`:
the line-120 fallback chain is computed into an unused variable) and the raw
downloaded bytes as an images embed.  A post with all three text fields absent
is still published with `undefined` text even when the unused line-120 chain
would have supplied its username. -/
theorem repost_publishes_unconditionally :
    (∀ (pubOk : RPost → Bool) (postedIds : List String) (posts : List RPost),
      (runRepost pubOk postedIds posts).published =
        ((rcandidates postedIds posts).filter pubOk).map
          (fun post =>
            PublishedPost.mk post.id (fallback3 post)
              (buildEmbedRepost (repostFiles post)))) ∧
    ((runRepost (fun _ => true) []
        [RPost.mk "r0" none none none none none none none none none none none
          none none (some "user0") none []]).published =
      [PublishedPost.mk "r0" none Embed.undef] ∧
      textVarLine120
        (RPost.mk "r0" none none none none none none none none none none none
          none none (some "user0") none []) = "user0") := by
  constructor
  · intro pubOk postedIds posts
    exact runRepost_published pubOk postedIds posts
  · constructor
    · decide
    · decide

end F1Bot
